import Mathlib

/-!
Verification development for the coreml-demo repository.

The repository consists of two tutorial notebooks.  Each one trains or
builds a machine-learning model via an external library, converts it to a
CoreML artifact, writes the artifact to disk, and (only on macOS) reloads
the artifact and runs one demonstration prediction.

We embed the repository's own glue code shallowly: each notebook becomes a
function from an abstract file system (and, for the PyTorch notebook, an
abstract web fetcher) and a platform string to an `Except`-value that
carries the trace of externally visible effects together with the values
the code binds (hyperparameters, feature names, class labels, the example
input record, the prediction).  External library internals (tree boosting,
convolution, graph conversion) are opaque: we record only the arguments the
repository passes to them, which is all the spec claims speak about.
-/

namespace CoremlDemo

set_option maxRecDepth 2048

/-- A Python scalar or image value as it appears in the notebooks'
literal dictionaries. -/
inductive PyVal where
  | str (s : String)
  | int (n : Int)
  | float (q : Rat)
  | image (src : String)
deriving DecidableEq

/-- Whether a Python value is a scalar (string/int/float literal),
as opposed to a compound object such as a loaded image. -/
def PyVal.isScalar : PyVal → Bool
  | .str _ => true
  | .int _ => true
  | .float _ => true
  | .image _ => false

/-- The exceptions the notebooks' own code can let escape. -/
inductive PyErr where
  | ioError (file : String)
  | urlError (url : String)
  | indexError
  | assertionError
deriving DecidableEq

/-- Externally visible effects of a notebook run, in order. -/
inductive Effect where
  | readFile (name : String)
  | writeFile (name : String)
  | network (url : String)
  | trainCall
  | buildCall
  | convertCall
  | loadModelCall (name : String)
  | predictCall
deriving DecidableEq

/-! ### Python string primitives used by the notebooks -/

/-- Whitespace characters recognised by Python's argumentless
`str.split`. -/
def pyIsSpace (c : Char) : Bool :=
  c = ' ' || c = '\t' || c = '\n' || c = '\r' || c = '\x0b' || c = '\x0c'

/-- Split a character list at every newline; a list with k newlines yields
k+1 (possibly empty) segments. -/
def splitOnNL (l : List Char) : List (List Char) :=
  l.foldr
    (fun c acc =>
      match acc with
      | [] => [[]]
      | a :: as => if c = '\n' then [] :: a :: as else (c :: a) :: as)
    [[]]

/-- Python `str.splitlines` for newline-terminated text: the segments
between newlines, with no empty final entry for a trailing newline. -/
def splitlines (s : String) : List String :=
  let parts := splitOnNL s.toList
  let parts := if parts.getLast? = some [] then parts.dropLast else parts
  parts.map String.mk

/-- Python `file.readlines`: the lines of the text, each keeping its
terminating newline; a final unterminated line is kept as-is. -/
def readlines (s : String) : List String :=
  let parts := splitOnNL s.toList
  let names := parts.dropLast.map (fun p => String.mk (p ++ ['\n']))
  match parts.getLast? with
  | some [] => names
  | some l => names ++ [String.mk l]
  | none => names

/-- Tokenizer behind Python's argumentless `str.split`: splits at runs of
whitespace and drops leading/trailing whitespace.  The first argument
accumulates the current token in reverse. -/
def tokenize : List Char → List Char → List (List Char)
  | cur, [] => if cur.isEmpty then [] else [cur.reverse]
  | cur, c :: cs =>
    if pyIsSpace c then
      if cur.isEmpty then tokenize [] cs else cur.reverse :: tokenize [] cs
    else tokenize (c :: cur) cs

/-- Python's argumentless `str.split`. -/
def pysplit (s : String) : List String :=
  (tokenize [] s.toList).map String.mk

/-- Python's `str.startswith`. -/
def pyStartswith (s p : String) : Bool :=
  p.toList.isPrefixOf s.toList

/-! ### Python dictionaries (insertion-ordered association lists) -/

/-- Python dictionary assignment `d[k] = v`: update the value in place if
the key exists, otherwise append the new entry at the end. -/
def dictSet : List (String × PyVal) → String → PyVal → List (String × PyVal)
  | [], k, v => [(k, v)]
  | p :: d, k, v => if p.1 = k then (k, v) :: d else p :: dictSet d k v

/-- Python dictionary lookup `d[k]` (as an `Option`). -/
def dictGet (d : List (String × PyVal)) (k : String) : Option PyVal :=
  (d.find? (fun p => p.1 == k)).map Prod.snd

/-! ### The XGBoost notebook -/

/-- The literal hyperparameter dictionary `param` of the XGBoost
notebook. -/
def xgbParam : List (String × PyVal) :=
  [("objective", .str "reg:squarederror"),
   ("eta", .str "1.0"),
   ("gamma", .float 1),
   ("min_child_weight", .int 1),
   ("max_depth", .int 3)]

/-- The arguments the notebook passes to `xgb.train`. -/
structure TrainArgs where
  param : List (String × PyVal)
  trainData : String
  numBoostRound : Nat
deriving DecidableEq

/-- The arguments the notebook passes to
`ct.converters.xgboost.convert`. -/
structure XgbConvertArgs where
  featureNames : List String
  target : String
  mode : String
deriving DecidableEq

/-- The value the variable `prediction` holds at the end of a notebook:
either the placeholder string, or the result of running the CoreML
predict call on the reloaded artifact with the given input record. -/
inductive Prediction where
  | pyStr (s : String)
  | coreml (artifact : String) (input : List (String × PyVal))
deriving DecidableEq

/-- The placeholder bound to `prediction` off macOS. -/
def skipMsg : String := "Skipping prediction on non-macOS system"

/-- The feature-name extraction loop of the XGBoost notebook applied to a
list of lines: the second whitespace token of each line, failing (like the
Python `line.split()[1]`) on any line with fewer than two tokens. -/
def secondTokens : List String → Option (List String)
  | [] => some []
  | l :: ls =>
    match (pysplit l).get? 1 with
    | none => none
    | some t => (secondTokens ls).map (fun r => t :: r)

/-- The feature-name extraction of the XGBoost notebook applied to the
contents of `machine.featmap.txt`. -/
def getFeatureNames (contents : String) : Option (List String) :=
  secondTokens (readlines contents)

/-- The literal numeric part of the `example` dictionary. -/
def exampleInit : List (String × PyVal) :=
  [("MYCT", .int 125), ("MMIN", .int 256), ("MMAX", .int 6000),
   ("CACH", .int 256), ("CHMIN", .int 16), ("CHMAX", .int 128)]

/-- One iteration of the one-hot vendor loop: set a `vendor:ibm` feature
to 1, any other vendor-prefixed feature to 0, and leave the dictionary
unchanged otherwise. -/
def vendorStep (d : List (String × PyVal)) (fn : String) : List (String × PyVal) :=
  if fn = "vendor:ibm" then dictSet d fn (.int 1)
  else if pyStartswith fn "vendor" then dictSet d fn (.int 0)
  else d

/-- The one-hot vendor loop of the XGBoost notebook: starting from the
literal numeric entries, set each `vendor:ibm` feature to 1 and every
other vendor-prefixed feature to 0. -/
def buildExample (featureNames : List String) : List (String × PyVal) :=
  featureNames.foldl vendorStep exampleInit

/-- The value the one-hot loop is meant to leave at a vendor-prefixed
key. -/
def vendorVal (k : String) : PyVal :=
  if k = "vendor:ibm" then .int 1 else .int 0

/-- Opaque serialization of the converted XGBoost model: the artifact is a
function of what the repository passed to train and convert. -/
def xgbArtifact (t : TrainArgs) (c : XgbConvertArgs) : String :=
  "mlmodel<" ++ t.trainData ++ ";" ++ String.intercalate "," c.featureNames
    ++ ";" ++ c.target ++ ";" ++ c.mode ++ ">"

/-- Everything a successful XGBoost-notebook run binds. -/
structure XgbOut where
  trace : List Effect
  trainArgs : TrainArgs
  featureNames : List String
  convertArgs : XgbConvertArgs
  exampleDict : List (String × PyVal)
  artifact : String
  prediction : Prediction
deriving DecidableEq

/-- The effect trace of the XGBoost notebook up to the platform gate. -/
def xgbBaseTrace : List Effect :=
  [.readFile "machine.txt.train", .readFile "machine.txt.test",
   .trainCall,
   .readFile "machine.featmap.txt", .readFile "machine.featmap.txt",
   .convertCall, .writeFile "machine.mlmodel"]

/-- The XGBoost notebook, cell by cell: load the two DMatrix files, train
with the literal `param` and `num_boost_round=2`, plot the tree (which
reads the feature-map file), read the feature map again to build
`feature_names`, convert with `target='perf'` and `mode='regressor'`,
save `machine.mlmodel`, build the `example` dictionary, and finally either
reload-and-predict (on darwin) or bind the placeholder string. -/
def xgbRun (fs : String → Option String) (platform : String) :
    Except PyErr XgbOut :=
  match fs "machine.txt.train" with
  | none => .error (.ioError "machine.txt.train")
  | some dtrain =>
  match fs "machine.txt.test" with
  | none => .error (.ioError "machine.txt.test")
  | some _dtest =>
  let bst : TrainArgs := ⟨xgbParam, dtrain, 2⟩
  match fs "machine.featmap.txt" with
  | none => .error (.ioError "machine.featmap.txt")
  | some fmap =>
  match getFeatureNames fmap with
  | none => .error .indexError
  | some fns =>
  let cargs : XgbConvertArgs := ⟨fns, "perf", "regressor"⟩
  let artifact := xgbArtifact bst cargs
  let ex := buildExample fns
  if platform = "darwin" then
    .ok { trace := xgbBaseTrace ++ [.loadModelCall "machine.mlmodel", .predictCall],
          trainArgs := bst, featureNames := fns, convertArgs := cargs,
          exampleDict := ex, artifact := artifact,
          prediction := .coreml artifact ex }
  else
    .ok { trace := xgbBaseTrace,
          trainArgs := bst, featureNames := fns, convertArgs := cargs,
          exampleDict := ex, artifact := artifact,
          prediction := .pyStr skipMsg }

/-! ### The PyTorch notebook -/

/-- The literal URL of the class-labels download. -/
def labelUrl : String :=
  "https://storage.googleapis.com/download.tensorflow.org/data/ImageNetLabels.txt"

/-- The class-labels cell of the PyTorch notebook: split the downloaded
text into lines, drop the first (background) entry, and assert the rest
has exactly 1000 entries. -/
def classLabelsStep (text : String) : Except PyErr (List String) :=
  if ((splitlines text).drop 1).length = 1000 then .ok ((splitlines text).drop 1)
  else .error .assertionError

/-- The arguments the PyTorch notebook passes to `ct.convert` that the
spec speaks about: the traced input shape and the class-label list handed
to `ClassifierConfig`. -/
structure PtConvertArgs where
  inputShape : List Nat
  classLabels : List String
deriving DecidableEq

/-- Opaque serialization of the converted PyTorch model. -/
def ptArtifact (c : PtConvertArgs) : String :=
  "mlmodel<mobilenetv2;" ++ String.intercalate "," c.classLabels ++ ">"

/-- Everything a successful PyTorch-notebook run binds. -/
structure PtOut where
  trace : List Effect
  classLabels : List String
  img : String
  convertArgs : PtConvertArgs
  artifact : String
  prediction : Prediction
deriving DecidableEq

/-- The effect trace of the PyTorch notebook up to the platform gate. -/
def ptBaseTrace : List Effect :=
  [.buildCall, .network labelUrl, .readFile "Dog.jpg",
   .convertCall, .writeFile "MobileNet_v2_torch.mlmodel"]

/-- The PyTorch notebook, cell by cell: build the MobileNetV2 model via
`torch.hub.load`, download and trim the class-label list, open `Dog.jpg`,
run the torch sanity check (no external effect), convert with the class
labels, save `MobileNet_v2_torch.mlmodel`, and finally either
reload-and-predict on the image (on darwin) or bind the placeholder. -/
def ptRun (fs web : String → Option String) (platform : String) :
    Except PyErr PtOut :=
  match web labelUrl with
  | none => .error (.urlError labelUrl)
  | some text =>
  match classLabelsStep text with
  | .error e => .error e
  | .ok classLabels =>
  match fs "Dog.jpg" with
  | none => .error (.ioError "Dog.jpg")
  | some img =>
  let cargs : PtConvertArgs := ⟨[1, 3, 224, 224], classLabels⟩
  let artifact := ptArtifact cargs
  if platform = "darwin" then
    .ok { trace := ptBaseTrace ++ [.loadModelCall "MobileNet_v2_torch.mlmodel", .predictCall],
          classLabels := classLabels, img := img, convertArgs := cargs,
          artifact := artifact,
          prediction := .coreml artifact [("input.1", .image img)] }
  else
    .ok { trace := ptBaseTrace,
          classLabels := classLabels, img := img, convertArgs := cargs,
          artifact := artifact, prediction := .pyStr skipMsg }

/-! ### Trace observations -/

/-- The names of the files a trace reads, in order. -/
def readNames (t : List Effect) : List String :=
  t.filterMap fun e =>
    match e with
    | .readFile n => some n
    | _ => none

/-- The names of the files a trace writes, in order. -/
def writeNames (t : List Effect) : List String :=
  t.filterMap fun e =>
    match e with
    | .writeFile n => some n
    | _ => none

/-- The URLs a trace fetches over the network, in order. -/
def networkUrls (t : List Effect) : List String :=
  t.filterMap fun e =>
    match e with
    | .network u => some u
    | _ => none

/-- The model-load and predict events of a trace, in order. -/
def loadPredictEvents (t : List Effect) : List Effect :=
  t.filter fun e =>
    match e with
    | .loadModelCall _ => true
    | .predictCall => true
    | _ => false

/-- No model load or predict call happens before the artifact file `a`
has been written. -/
def noPredBeforeWrite (a : String) : List Effect → Bool
  | [] => true
  | .writeFile b :: rest => b = a || noPredBeforeWrite a rest
  | .loadModelCall _ :: _ => false
  | .predictCall :: _ => false
  | _ :: rest => noPredBeforeWrite a rest

/-- The data-set files of the two notebooks (the training/test inputs of
spec step 1; the feature map and class labels are conversion metadata). -/
def dataFiles : List String :=
  ["machine.txt.train", "machine.txt.test", "Dog.jpg"]

/-- Pipeline phase of an effect, following the spec's step numbering:
0 load data, 1 train or build, 2 convert, 3 serialize, 4 reload/predict.
Metadata reads and downloads carry no phase. -/
def phaseOf : Effect → Option Nat
  | .readFile n => if dataFiles.contains n then some 0 else none
  | .network _ => none
  | .trainCall => some 1
  | .buildCall => some 1
  | .convertCall => some 2
  | .writeFile _ => some 3
  | .loadModelCall _ => some 4
  | .predictCall => some 4

/-- A list of naturals is weakly increasing. -/
def sortedLE : List Nat → Bool
  | [] => true
  | [_] => true
  | a :: b :: r => a ≤ b && sortedLE (b :: r)

/-- The phased events of a trace occur in the spec's linear order. -/
def phasesMonotone (t : List Effect) : Bool :=
  sortedLE (t.filterMap phaseOf)

/-! ### Concrete runs used as witnesses and counterexamples -/

/-- A small concrete feature-map file: one line per feature, each line
holding an index, a name and a type. -/
def featmap0 : String :=
  "0\tMYCT\tq\n1\tvendor:ibm\ti\n2\tvendor:dec\ti\n"

/-- A concrete working directory for the XGBoost notebook. -/
def xgbFs0 : String → Option String := fun n =>
  if n = "machine.txt.train" then some "81 0:125 1:256\n"
  else if n = "machine.txt.test" then some "22 0:29 1:8000\n"
  else if n = "machine.featmap.txt" then some featmap0
  else none

/-- The concrete XGBoost working directory with the feature-map file
missing. -/
def xgbFsNoFm : String → Option String := fun n =>
  if n = "machine.txt.train" then some "81 0:125 1:256\n"
  else if n = "machine.txt.test" then some "22 0:29 1:8000\n"
  else none

/-- A downloaded class-labels text with exactly 1001 lines (the
background entry followed by 1000 labels). -/
def fakeLabels : String :=
  String.mk ((List.replicate 1000 ['x', '\n']).flatten ++ ['y'])

/-- A concrete working directory for the PyTorch notebook. -/
def ptFs0 : String → Option String := fun n =>
  if n = "Dog.jpg" then some "JPEGDATA" else none

/-- A concrete web fetcher serving the class-labels file. -/
def ptWeb0 : String → Option String := fun u =>
  if u = labelUrl then some fakeLabels else none

/-- A placeholder output record. -/
def xgbOutJunk : XgbOut :=
  { trace := [], trainArgs := ⟨[], "", 0⟩, featureNames := [],
    convertArgs := ⟨[], "", ""⟩, exampleDict := [], artifact := "",
    prediction := .pyStr "" }

/-- The output of the XGBoost notebook on the concrete directory, off
macOS. -/
def xgbOut0 : XgbOut :=
  match xgbRun xgbFs0 "linux" with
  | .ok o => o
  | .error _ => xgbOutJunk

/-- The output of the XGBoost notebook on the concrete directory, on
macOS. -/
def xgbOutD : XgbOut :=
  match xgbRun xgbFs0 "darwin" with
  | .ok o => o
  | .error _ => xgbOutJunk

/-- A placeholder output record. -/
def ptOutJunk : PtOut :=
  { trace := [], classLabels := [], img := "", convertArgs := ⟨[], []⟩,
    artifact := "", prediction := .pyStr "" }

/-- The class-label list the concrete download yields after dropping the
background entry. -/
def ptLabels0 : List String := List.replicate 999 "x" ++ ["y"]

/-- The output of the PyTorch notebook on the concrete environment, off
macOS. -/
def ptOut0 : PtOut :=
  { trace := ptBaseTrace, classLabels := ptLabels0, img := "JPEGDATA",
    convertArgs := ⟨[1, 3, 224, 224], ptLabels0⟩,
    artifact := ptArtifact ⟨[1, 3, 224, 224], ptLabels0⟩,
    prediction := .pyStr skipMsg }

/-- The output of the PyTorch notebook on the concrete environment, on
macOS. -/
def ptOutD : PtOut :=
  { trace := ptBaseTrace ++
      [.loadModelCall "MobileNet_v2_torch.mlmodel", .predictCall],
    classLabels := ptLabels0, img := "JPEGDATA",
    convertArgs := ⟨[1, 3, 224, 224], ptLabels0⟩,
    artifact := ptArtifact ⟨[1, 3, 224, 224], ptLabels0⟩,
    prediction := .coreml (ptArtifact ⟨[1, 3, 224, 224], ptLabels0⟩)
      [("input.1", .image "JPEGDATA")] }

/-! ### The spec's claims as stated, where they need refuting -/

/-- Claim C1 as stated: no run of either notebook performs any network
communication. -/
def specClaimNoNetwork : Prop :=
  (∀ (fs : String → Option String) (p : String) (out : XgbOut),
      xgbRun fs p = .ok out → networkUrls out.trace = []) ∧
  (∀ (fs web : String → Option String) (p : String) (out : PtOut),
      ptRun fs web p = .ok out → networkUrls out.trace = [])

/-- Claim C3 as stated: each notebook reads exactly two local files and
writes exactly its one artifact file. -/
def specClaimTwoReadsOneWrite : Prop :=
  (∀ (fs : String → Option String) (p : String) (out : XgbOut),
      xgbRun fs p = .ok out →
        (readNames out.trace).dedup.length = 2 ∧
        writeNames out.trace = ["machine.mlmodel"]) ∧
  (∀ (fs web : String → Option String) (p : String) (out : PtOut),
      ptRun fs web p = .ok out →
        (readNames out.trace).dedup.length = 2 ∧
        writeNames out.trace = ["MobileNet_v2_torch.mlmodel"])

/-- Claim C8 as stated: in every run the pipeline events occur in the
fixed linear order load data, train or build, convert, serialize,
reload/predict. -/
def specClaimLinearOrder : Prop :=
  (∀ (fs : String → Option String) (p : String) (out : XgbOut),
      xgbRun fs p = .ok out →
        phasesMonotone out.trace = true ∧
        noPredBeforeWrite "machine.mlmodel" out.trace = true) ∧
  (∀ (fs web : String → Option String) (p : String) (out : PtOut),
      ptRun fs web p = .ok out →
        phasesMonotone out.trace = true ∧
        noPredBeforeWrite "MobileNet_v2_torch.mlmodel" out.trace = true)

/-! ### Helper lemmas -/

theorem dictGet_set_self (d : List (String × PyVal)) (k : String) (v : PyVal) :
    dictGet (dictSet d k v) k = some v := by
  induction d with
  | nil => simp [dictSet, dictGet, List.find?]
  | cons p d ih =>
    by_cases h : p.1 = k
    · simp [dictSet, h, dictGet, List.find?]
    · simpa [dictSet, h, dictGet, List.find?] using ih

theorem dictGet_set_ne (d : List (String × PyVal)) (k k' : String) (v : PyVal)
    (h : k' ≠ k) : dictGet (dictSet d k v) k' = dictGet d k' := by
  have hkk : (k == k') = false := beq_eq_false_iff_ne.mpr (Ne.symm h)
  induction d with
  | nil => simp [dictSet, dictGet, List.find?, hkk]
  | cons p d ih =>
    by_cases hp : p.1 = k
    · have hp' : (p.1 == k') = false := by rw [hp]; exact hkk
      simp [dictSet, hp, dictGet, List.find?, hkk, hp']
    · simp only [dictSet, if_neg hp]
      by_cases hk : p.1 = k'
      · simp [dictGet, List.find?, hk]
      · have hk' : (p.1 == k') = false := beq_eq_false_iff_ne.mpr hk
        simp only [dictGet, List.find?, hk']
        exact ih

theorem secondTokens_of_long (ls : List String)
    (h : ∀ l ∈ ls, 2 ≤ (pysplit l).length) :
    secondTokens ls = some (ls.map fun l => ((pysplit l).get? 1).getD "") := by
  induction ls with
  | nil => simp [secondTokens]
  | cons l ls ih =>
    have h1 : 1 < (pysplit l).length := h l (List.mem_cons_self l ls)
    have hg : (pysplit l).get? 1 = some ((pysplit l).get ⟨1, h1⟩) :=
      List.get?_eq_get h1
    have hrest := ih fun x hx => h x (List.mem_cons_of_mem l hx)
    simp only [secondTokens, List.map_cons]
    rw [hg, hrest]
    simp

theorem secondTokens_isSome_iff (ls : List String) :
    (secondTokens ls).isSome = true ↔ ∀ l ∈ ls, 2 ≤ (pysplit l).length := by
  induction ls with
  | nil => simp [secondTokens]
  | cons l ls ih =>
    cases hg : (pysplit l).get? 1 with
    | none =>
      have hlen : (pysplit l).length ≤ 1 := List.get?_eq_none.mp hg
      simp only [secondTokens]
      rw [hg]
      constructor
      · intro h; simp at h
      · intro h
        exfalso
        have := h l (List.mem_cons_self l ls)
        omega
    | some t =>
      simp only [secondTokens]
      rw [hg]
      have h1 : 1 < (pysplit l).length := by
        obtain ⟨hlt, -⟩ := List.get?_eq_some.mp hg
        exact hlt
      constructor
      · intro h x hx
        rcases List.mem_cons.mp hx with rfl | hx
        · omega
        · exact (ih.mp (by simpa using h)) x hx
      · intro h
        have : (secondTokens ls).isSome = true :=
          ih.mpr fun x hx => h x (List.mem_cons_of_mem l hx)
        simpa using this

theorem vendorStep_vendor_inv (d : List (String × PyVal)) (fn : String)
    (hd : ∀ k v, pyStartswith k "vendor" = true →
      dictGet d k = some v → v = vendorVal k) :
    ∀ k v, pyStartswith k "vendor" = true →
      dictGet (vendorStep d fn) k = some v → v = vendorVal k := by
  intro k v hk hget
  unfold vendorStep at hget
  by_cases h1 : fn = "vendor:ibm"
  · rw [if_pos h1] at hget
    by_cases hkf : k = fn
    · subst hkf
      rw [dictGet_set_self] at hget
      rw [vendorVal, if_pos h1]
      exact (Option.some.inj hget).symm
    · rw [dictGet_set_ne _ _ _ _ hkf] at hget
      exact hd k v hk hget
  · rw [if_neg h1] at hget
    by_cases h2 : pyStartswith fn "vendor" = true
    · rw [if_pos h2] at hget
      by_cases hkf : k = fn
      · subst hkf
        rw [dictGet_set_self] at hget
        rw [vendorVal, if_neg h1]
        exact (Option.some.inj hget).symm
      · rw [dictGet_set_ne _ _ _ _ hkf] at hget
        exact hd k v hk hget
    · rw [if_neg h2] at hget
      exact hd k v hk hget

theorem foldl_vendorStep_inv (fns : List String) (d : List (String × PyVal))
    (hd : ∀ k v, pyStartswith k "vendor" = true →
      dictGet d k = some v → v = vendorVal k) :
    ∀ k v, pyStartswith k "vendor" = true →
      dictGet (fns.foldl vendorStep d) k = some v → v = vendorVal k := by
  induction fns generalizing d with
  | nil => exact hd
  | cons fn fns ih => exact ih _ (vendorStep_vendor_inv d fn hd)

theorem vendorStep_nonvendor (d : List (String × PyVal)) (fn k : String)
    (hk : pyStartswith k "vendor" = false) :
    dictGet (vendorStep d fn) k = dictGet d k := by
  unfold vendorStep
  by_cases h1 : fn = "vendor:ibm"
  · rw [if_pos h1]
    apply dictGet_set_ne
    intro he
    rw [he, h1] at hk
    exact absurd hk (by decide)
  · rw [if_neg h1]
    by_cases h2 : pyStartswith fn "vendor" = true
    · rw [if_pos h2]
      apply dictGet_set_ne
      intro he
      rw [he, h2] at hk
      cases hk
    · rw [if_neg h2]

theorem foldl_vendorStep_nonvendor (fns : List String)
    (d : List (String × PyVal)) (k : String)
    (hk : pyStartswith k "vendor" = false) :
    dictGet (fns.foldl vendorStep d) k = dictGet d k := by
  induction fns generalizing d with
  | nil => rfl
  | cons fn fns ih =>
    rw [List.foldl_cons, ih (vendorStep d fn), vendorStep_nonvendor d fn k hk]

theorem exampleInit_vendor_inv :
    ∀ k v, pyStartswith k "vendor" = true →
      dictGet exampleInit k = some v → v = vendorVal k := by
  intro k v hk h
  exfalso
  cases hf : List.find? (fun p => p.1 == k) exampleInit with
  | none => rw [dictGet, hf] at h; cases h
  | some p =>
    have hmem := List.mem_of_find?_eq_some hf
    have hpk : p.1 = k := by simpa using List.find?_some hf
    subst hpk
    fin_cases hmem <;> exact absurd hk (by decide)

/-- Inversion for a successful run of the XGBoost notebook: the three
input files were read, the feature-name extraction succeeded, and every
bound value is determined by the file contents and the platform. -/
theorem xgbRun_ok (fs : String → Option String) (p : String) (out : XgbOut)
    (h : xgbRun fs p = .ok out) :
    ∃ dtrain dtest fmap fns,
      fs "machine.txt.train" = some dtrain ∧
      fs "machine.txt.test" = some dtest ∧
      fs "machine.featmap.txt" = some fmap ∧
      getFeatureNames fmap = some fns ∧
      out.trainArgs = ⟨xgbParam, dtrain, 2⟩ ∧
      out.featureNames = fns ∧
      out.convertArgs = ⟨fns, "perf", "regressor"⟩ ∧
      out.exampleDict = buildExample fns ∧
      out.artifact = xgbArtifact ⟨xgbParam, dtrain, 2⟩ ⟨fns, "perf", "regressor"⟩ ∧
      ((p = "darwin" ∧
          out.trace = xgbBaseTrace ++
            [.loadModelCall "machine.mlmodel", .predictCall] ∧
          out.prediction = .coreml out.artifact out.exampleDict) ∨
       (p ≠ "darwin" ∧ out.trace = xgbBaseTrace ∧
          out.prediction = .pyStr skipMsg)) := by
  cases h1 : fs "machine.txt.train" with
  | none => simp [xgbRun, h1] at h
  | some dtrain =>
  cases h2 : fs "machine.txt.test" with
  | none => simp [xgbRun, h1, h2] at h
  | some dtest =>
  cases h3 : fs "machine.featmap.txt" with
  | none => simp [xgbRun, h1, h2, h3] at h
  | some fmap =>
  cases h4 : getFeatureNames fmap with
  | none => simp [xgbRun, h1, h2, h3, h4] at h
  | some fns =>
  refine ⟨dtrain, dtest, fmap, fns, rfl, rfl, rfl, h4, ?_⟩
  unfold xgbRun at h
  simp only [h1, h2, h3, h4] at h
  by_cases hp : p = "darwin"
  · rw [if_pos hp] at h
    injection h with h
    subst h
    refine ⟨rfl, rfl, rfl, rfl, rfl, Or.inl ⟨hp, rfl, rfl⟩⟩
  · rw [if_neg hp] at h
    injection h with h
    subst h
    refine ⟨rfl, rfl, rfl, rfl, rfl, Or.inr ⟨hp, rfl, rfl⟩⟩

/-- Inversion for a successful run of the PyTorch notebook. -/
theorem ptRun_ok (fs web : String → Option String) (p : String) (out : PtOut)
    (h : ptRun fs web p = .ok out) :
    ∃ text img,
      web labelUrl = some text ∧
      classLabelsStep text = .ok out.classLabels ∧
      fs "Dog.jpg" = some img ∧
      out.img = img ∧
      out.convertArgs = ⟨[1, 3, 224, 224], out.classLabels⟩ ∧
      out.artifact = ptArtifact ⟨[1, 3, 224, 224], out.classLabels⟩ ∧
      ((p = "darwin" ∧
          out.trace = ptBaseTrace ++
            [.loadModelCall "MobileNet_v2_torch.mlmodel", .predictCall] ∧
          out.prediction = .coreml out.artifact [("input.1", .image img)]) ∨
       (p ≠ "darwin" ∧ out.trace = ptBaseTrace ∧
          out.prediction = .pyStr skipMsg)) := by
  cases h1 : web labelUrl with
  | none => simp [ptRun, h1] at h
  | some text =>
  cases h2 : classLabelsStep text with
  | error e => simp [ptRun, h1, h2] at h
  | ok classLabels =>
  cases h3 : fs "Dog.jpg" with
  | none => simp [ptRun, h1, h2, h3] at h
  | some img =>
  unfold ptRun at h
  simp only [h1, h2, h3] at h
  by_cases hp : p = "darwin"
  · rw [if_pos hp] at h
    injection h with h
    subst h
    exact ⟨text, img, rfl, h2, rfl, rfl, rfl, rfl, Or.inl ⟨hp, rfl, rfl⟩⟩
  · rw [if_neg hp] at h
    injection h with h
    subst h
    exact ⟨text, img, rfl, h2, rfl, rfl, rfl, rfl, Or.inr ⟨hp, rfl, rfl⟩⟩

theorem splitOnNL_cons (c : Char) (l : List Char) :
    splitOnNL (c :: l) =
      match splitOnNL l with
      | [] => [[]]
      | a :: as => if c = '\n' then [] :: a :: as else (c :: a) :: as := rfl

theorem splitOnNL_rep (n : Nat) :
    splitOnNL ((List.replicate n ['x', '\n']).flatten ++ ['y']) =
      List.replicate n ['x'] ++ [['y']] := by
  induction n with
  | zero => rfl
  | succ n ih =>
    have hx : (List.replicate (n + 1) ['x', '\n']).flatten ++ ['y'] =
        'x' :: '\n' :: ((List.replicate n ['x', '\n']).flatten ++ ['y']) := by
      simp [List.replicate_succ]
    rw [hx, splitOnNL_cons, splitOnNL_cons, ih]
    cases n <;> simp [List.replicate_succ]

theorem splitlines_fakeLabels :
    splitlines fakeLabels = List.replicate 1000 "x" ++ ["y"] := by
  have hl : fakeLabels.toList =
      (List.replicate 1000 ['x', '\n']).flatten ++ ['y'] := rfl
  simp only [splitlines]
  rw [hl, splitOnNL_rep 1000, List.getLast?_concat]
  rw [if_neg (by decide : ¬(some ['y'] = some ([] : List Char)))]
  simp only [List.map_append, List.map_replicate, List.map_cons, List.map_nil]

theorem classLabelsStep_fakeLabels :
    classLabelsStep fakeLabels = .ok ptLabels0 := by
  unfold classLabelsStep
  rw [splitlines_fakeLabels]
  have hdrop : (List.replicate 1000 "x" ++ ["y"]).drop 1 =
      List.replicate 999 "x" ++ ["y"] := by
    rw [show (1000 : Nat) = 999 + 1 from rfl, List.replicate_succ,
        List.cons_append, List.drop_succ_cons, List.drop_zero]
  rw [hdrop]
  rw [if_pos (show (List.replicate 999 "x" ++ ["y"]).length = 1000 by
    rw [List.length_append, List.length_replicate]
    rfl)]
  rfl

theorem ptRun_eq0 : ptRun ptFs0 ptWeb0 "linux" = .ok ptOut0 := by
  unfold ptRun
  have hw : ptWeb0 labelUrl = some fakeLabels := rfl
  have hf : ptFs0 "Dog.jpg" = some "JPEGDATA" := rfl
  simp only [hw, classLabelsStep_fakeLabels, hf]
  rw [if_neg (by decide : ¬("linux" = "darwin"))]
  rfl

theorem ptRun_eqD : ptRun ptFs0 ptWeb0 "darwin" = .ok ptOutD := by
  unfold ptRun
  have hw : ptWeb0 labelUrl = some fakeLabels := rfl
  have hf : ptFs0 "Dog.jpg" = some "JPEGDATA" := rfl
  simp only [hw, classLabelsStep_fakeLabels, hf]
  rw [if_pos trivial]
  rfl

/-! ### The claims -/

/-- Claim C2: on a platform other than darwin, each notebook's final
prediction step performs no model load and no predict call and binds
`prediction` to the literal placeholder string; on darwin it reloads the
serialized artifact and calls the library predict function with the
literal input record. -/
theorem claimC2_platform_gate :
    (∀ (fs : String → Option String) (p : String) (out : XgbOut),
        xgbRun fs p = .ok out →
          (p ≠ "darwin" →
            out.prediction = .pyStr skipMsg ∧
            loadPredictEvents out.trace = []) ∧
          (p = "darwin" →
            out.prediction = .coreml out.artifact out.exampleDict ∧
            loadPredictEvents out.trace =
              [.loadModelCall "machine.mlmodel", .predictCall])) ∧
    (∀ (fs web : String → Option String) (p : String) (out : PtOut),
        ptRun fs web p = .ok out →
          (p ≠ "darwin" →
            out.prediction = .pyStr skipMsg ∧
            loadPredictEvents out.trace = []) ∧
          (p = "darwin" →
            (∃ img, fs "Dog.jpg" = some img ∧
              out.prediction = .coreml out.artifact [("input.1", .image img)]) ∧
            loadPredictEvents out.trace =
              [.loadModelCall "MobileNet_v2_torch.mlmodel", .predictCall])) := by
  constructor
  · intro fs p out h
    obtain ⟨dtrain, dtest, fmap, fns, -, -, -, -, -, -, -, -, -, hcase⟩ :=
      xgbRun_ok fs p out h
    rcases hcase with ⟨hp, htr, hpred⟩ | ⟨hp, htr, hpred⟩
    · exact ⟨fun hne => absurd hp hne,
        fun _ => ⟨hpred, by rw [htr]; decide⟩⟩
    · exact ⟨fun _ => ⟨hpred, by rw [htr]; decide⟩,
        fun he => absurd he hp⟩
  · intro fs web p out h
    obtain ⟨text, img, -, -, himg, hout, -, -, hcase⟩ :=
      ptRun_ok fs web p out h
    rcases hcase with ⟨hp, htr, hpred⟩ | ⟨hp, htr, hpred⟩
    · exact ⟨fun hne => absurd hp hne,
        fun _ => ⟨⟨img, himg, hpred⟩, by rw [htr]; decide⟩⟩
    · exact ⟨fun _ => ⟨hpred, by rw [htr]; decide⟩,
        fun he => absurd he hp⟩

/-- Witness for claim C2 at concrete environments: off macOS the
placeholder is bound; on macOS the CoreML prediction is bound. -/
theorem claimC2_witness :
    xgbOut0.prediction = .pyStr skipMsg ∧
    xgbOutD.prediction = .coreml xgbOutD.artifact xgbOutD.exampleDict ∧
    ptOut0.prediction = .pyStr skipMsg :=
  ⟨((claimC2_platform_gate.1 xgbFs0 "linux" xgbOut0 rfl).1 (by decide)).1,
   ((claimC2_platform_gate.1 xgbFs0 "darwin" xgbOutD rfl).2 rfl).1,
   ((claimC2_platform_gate.2 ptFs0 ptWeb0 "linux" ptOut0 ptRun_eq0).1 (by decide)).1⟩

/-- Claim C6: `xgb.train` is always called with the literal
hyperparameter dictionary (objective, eta, gamma, min_child_weight,
max_depth), each value a scalar, and with `num_boost_round = 2`; the
record is the same on every run. -/
theorem claimC6_hyperparams :
    ∀ (fs : String → Option String) (p : String) (out : XgbOut),
      xgbRun fs p = .ok out →
        out.trainArgs.param = xgbParam ∧
        out.trainArgs.numBoostRound = 2 ∧
        xgbParam =
          [("objective", .str "reg:squarederror"), ("eta", .str "1.0"),
           ("gamma", .float 1), ("min_child_weight", .int 1),
           ("max_depth", .int 3)] ∧
        (∀ kv ∈ xgbParam, kv.2.isScalar = true) ∧
        (∀ (fs' : String → Option String) (p' : String) (out' : XgbOut),
          xgbRun fs' p' = .ok out' →
            out'.trainArgs.param = out.trainArgs.param ∧
            out'.trainArgs.numBoostRound = out.trainArgs.numBoostRound) := by
  intro fs p out h
  obtain ⟨dtrain, dtest, fmap, fns, -, -, -, -, hta, -⟩ := xgbRun_ok fs p out h
  refine ⟨by rw [hta], by rw [hta], rfl, by decide, ?_⟩
  intro fs' p' out' h'
  obtain ⟨dtrain', dtest', fmap', fns', -, -, -, -, hta', -⟩ :=
    xgbRun_ok fs' p' out' h'
  rw [hta, hta']
  exact ⟨rfl, rfl⟩

/-- Witness for claim C6 at a concrete run. -/
theorem claimC6_witness :
    xgbOut0.trainArgs.param = xgbParam ∧
    xgbOut0.trainArgs.numBoostRound = 2 :=
  ⟨(claimC6_hyperparams xgbFs0 "linux" xgbOut0 rfl).1,
   (claimC6_hyperparams xgbFs0 "linux" xgbOut0 rfl).2.1⟩

/-- Claim C1 fails as stated: the PyTorch notebook's class-label cell
performs a network download, exhibited on a concrete run. -/
theorem claimC1_counterexample : ¬ specClaimNoNetwork := by
  intro h
  have h2 := h.2 ptFs0 ptWeb0 "linux" ptOut0 ptRun_eq0
  exact absurd h2 (by decide)

/-- Claim C1 amended: the XGBoost notebook performs no network
communication, while the PyTorch notebook's own code performs exactly one
network request, the class-labels download; in both notebooks the only
file produced is the one output artifact. -/
theorem claimC1_amended :
    (∀ (fs : String → Option String) (p : String) (out : XgbOut),
        xgbRun fs p = .ok out →
          networkUrls out.trace = [] ∧
          writeNames out.trace = ["machine.mlmodel"]) ∧
    (∀ (fs web : String → Option String) (p : String) (out : PtOut),
        ptRun fs web p = .ok out →
          networkUrls out.trace = [labelUrl] ∧
          writeNames out.trace = ["MobileNet_v2_torch.mlmodel"]) := by
  constructor
  · intro fs p out h
    obtain ⟨dtrain, dtest, fmap, fns, -, -, -, -, -, -, -, -, -, hcase⟩ :=
      xgbRun_ok fs p out h
    rcases hcase with ⟨-, htr, -⟩ | ⟨-, htr, -⟩ <;> rw [htr] <;> exact ⟨by decide, by decide⟩
  · intro fs web p out h
    obtain ⟨text, img, -, -, -, -, -, -, hcase⟩ := ptRun_ok fs web p out h
    rcases hcase with ⟨-, htr, -⟩ | ⟨-, htr, -⟩ <;> rw [htr] <;> exact ⟨by decide, by decide⟩

/-- Witness for the amended claim C1 at concrete runs. -/
theorem claimC1_witness :
    networkUrls xgbOut0.trace = [] ∧
    networkUrls ptOut0.trace = [labelUrl] :=
  ⟨(claimC1_amended.1 xgbFs0 "linux" xgbOut0 rfl).1,
   (claimC1_amended.2 ptFs0 ptWeb0 "linux" ptOut0 ptRun_eq0).1⟩

/-- Claim C3 fails as stated: on a concrete run the XGBoost notebook
reads three distinct local files, not two. -/
theorem claimC3_counterexample : ¬ specClaimTwoReadsOneWrite := by
  intro h
  have h1 : xgbRun xgbFs0 "linux" = .ok xgbOut0 := rfl
  have h2 := (h.1 xgbFs0 "linux" xgbOut0 h1).1
  exact absurd h2 (by decide)

/-- Claim C3 amended: the XGBoost notebook reads exactly three distinct
literal local files (the feature map twice) and writes exactly
`machine.mlmodel`; the PyTorch notebook reads exactly one literal local
file plus one literal URL and writes exactly
`MobileNet_v2_torch.mlmodel`; no other file is created or modified. -/
theorem claimC3_amended :
    (∀ (fs : String → Option String) (p : String) (out : XgbOut),
        xgbRun fs p = .ok out →
          readNames out.trace =
            ["machine.txt.train", "machine.txt.test",
             "machine.featmap.txt", "machine.featmap.txt"] ∧
          (readNames out.trace).dedup.length = 3 ∧
          writeNames out.trace = ["machine.mlmodel"]) ∧
    (∀ (fs web : String → Option String) (p : String) (out : PtOut),
        ptRun fs web p = .ok out →
          readNames out.trace = ["Dog.jpg"] ∧
          networkUrls out.trace = [labelUrl] ∧
          writeNames out.trace = ["MobileNet_v2_torch.mlmodel"]) := by
  constructor
  · intro fs p out h
    obtain ⟨dtrain, dtest, fmap, fns, -, -, -, -, -, -, -, -, -, hcase⟩ :=
      xgbRun_ok fs p out h
    rcases hcase with ⟨-, htr, -⟩ | ⟨-, htr, -⟩ <;> rw [htr] <;>
      exact ⟨by decide, by decide, by decide⟩
  · intro fs web p out h
    obtain ⟨text, img, -, -, -, -, -, -, hcase⟩ := ptRun_ok fs web p out h
    rcases hcase with ⟨-, htr, -⟩ | ⟨-, htr, -⟩ <;> rw [htr] <;>
      exact ⟨by decide, by decide, by decide⟩

/-- Witness for the amended claim C3 at concrete runs. -/
theorem claimC3_witness :
    (readNames xgbOut0.trace).dedup.length = 3 ∧
    readNames ptOut0.trace = ["Dog.jpg"] :=
  ⟨(claimC3_amended.1 xgbFs0 "linux" xgbOut0 rfl).2.1,
   (claimC3_amended.2 ptFs0 ptWeb0 "linux" ptOut0 ptRun_eq0).1⟩

/-- Claim C4: the class-label construction drops exactly the first
(background) entry; the assertion succeeds exactly when the downloaded
text splits into 1001 lines, and on success the resulting list is the
original line list minus its first element, in order, with 1000
entries. -/
theorem claimC4_class_labels (text : String) :
    ((∃ cl, classLabelsStep text = .ok cl) ↔
      (splitlines text).length = 1001) ∧
    (∀ cl, classLabelsStep text = .ok cl →
      cl = (splitlines text).drop 1 ∧ cl.length = 1000) := by
  constructor
  · constructor
    · rintro ⟨cl, hcl⟩
      unfold classLabelsStep at hcl
      split at hcl
      · next hlen =>
        rw [List.length_drop] at hlen
        omega
      · cases hcl
    · intro hlen
      have hd : ((splitlines text).drop 1).length = 1000 := by
        rw [List.length_drop, hlen]
      exact ⟨(splitlines text).drop 1, by unfold classLabelsStep; rw [if_pos hd]⟩
  · intro cl hcl
    unfold classLabelsStep at hcl
    split at hcl
    · next hlen =>
      injection hcl with hcl
      subst hcl
      exact ⟨rfl, hlen⟩
    · cases hcl

/-- Witness for claim C4 at the concrete 1001-line download. -/
theorem claimC4_witness :
    ∃ cl, classLabelsStep fakeLabels = .ok cl :=
  (claimC4_class_labels fakeLabels).1.mpr
    (by rw [splitlines_fakeLabels, List.length_append, List.length_replicate]; rfl)

/-- Claim C5: when every line of the feature-map file has at least two
whitespace-separated tokens, the extracted feature-name list is exactly
the second token of each line in file order, and a successful run passes
that list unchanged to the conversion call together with target `perf`
and mode `regressor`. -/
theorem claimC5_feature_names (c : String)
    (h : ∀ l ∈ readlines c, 2 ≤ (pysplit l).length) :
    getFeatureNames c =
      some ((readlines c).map fun l => ((pysplit l).get? 1).getD "") ∧
    (∀ (fs : String → Option String) (p : String) (out : XgbOut)
        (fns : List String),
      xgbRun fs p = .ok out →
      fs "machine.featmap.txt" = some c →
      getFeatureNames c = some fns →
        out.convertArgs = ⟨fns, "perf", "regressor"⟩ ∧
        out.featureNames = fns ∧
        out.convertArgs.featureNames = out.featureNames) := by
  constructor
  · exact secondTokens_of_long (readlines c) h
  · intro fs p out fns hrun hfm hfns
    obtain ⟨dtrain, dtest, fmap, fns', -, -, h3, h4, -, hfn, hca, -⟩ :=
      xgbRun_ok fs p out hrun
    rw [hfm] at h3
    injection h3 with h3
    rw [← h3] at h4
    rw [hfns] at h4
    injection h4 with h4
    subst h4
    exact ⟨hca, hfn, by rw [hca, hfn]⟩

/-- Witness for claim C5 at the concrete feature-map file. -/
theorem claimC5_witness :
    getFeatureNames featmap0 =
      some ((readlines featmap0).map fun l => ((pysplit l).get? 1).getD "") ∧
    xgbOut0.convertArgs =
      ⟨["MYCT", "vendor:ibm", "vendor:dec"], "perf", "regressor"⟩ :=
  ⟨(claimC5_feature_names featmap0 (by decide)).1,
   ((claimC5_feature_names featmap0 (by decide)).2 xgbFs0 "linux" xgbOut0
      ["MYCT", "vendor:ibm", "vendor:dec"] rfl rfl (by decide)).1⟩

/-- Claim C7: the repository code implements no error handling: whenever
a file read, the label download, the label assertion, or the feature-name
indexing fails, the corresponding exception propagates out of the run
uncaught. -/
theorem claimC7_no_error_handling :
    (∀ (fs : String → Option String) (p : String),
      fs "machine.txt.train" = none →
        xgbRun fs p = .error (.ioError "machine.txt.train")) ∧
    (∀ (fs : String → Option String) (p t : String),
      fs "machine.txt.train" = some t → fs "machine.txt.test" = none →
        xgbRun fs p = .error (.ioError "machine.txt.test")) ∧
    (∀ (fs : String → Option String) (p t u : String),
      fs "machine.txt.train" = some t → fs "machine.txt.test" = some u →
      fs "machine.featmap.txt" = none →
        xgbRun fs p = .error (.ioError "machine.featmap.txt")) ∧
    (∀ (fs : String → Option String) (p t u m : String),
      fs "machine.txt.train" = some t → fs "machine.txt.test" = some u →
      fs "machine.featmap.txt" = some m → getFeatureNames m = none →
        xgbRun fs p = .error .indexError) ∧
    (∀ (fs web : String → Option String) (p : String),
      web labelUrl = none → ptRun fs web p = .error (.urlError labelUrl)) ∧
    (∀ (fs web : String → Option String) (p text : String),
      web labelUrl = some text → (splitlines text).length ≠ 1001 →
        ptRun fs web p = .error .assertionError) ∧
    (∀ (fs web : String → Option String) (p text : String)
        (cl : List String),
      web labelUrl = some text → classLabelsStep text = .ok cl →
      fs "Dog.jpg" = none →
        ptRun fs web p = .error (.ioError "Dog.jpg")) := by
  refine ⟨?_, ?_, ?_, ?_, ?_, ?_, ?_⟩
  · intro fs p h1
    simp [xgbRun, h1]
  · intro fs p t h1 h2
    simp [xgbRun, h1, h2]
  · intro fs p t u h1 h2 h3
    simp [xgbRun, h1, h2, h3]
  · intro fs p t u m h1 h2 h3 h4
    simp [xgbRun, h1, h2, h3, h4]
  · intro fs web p h1
    simp [ptRun, h1]
  · intro fs web p text h1 hlen
    have hstep : classLabelsStep text = .error .assertionError := by
      have hc : ¬((splitlines text).drop 1).length = 1000 := by
        rw [List.length_drop]
        omega
      unfold classLabelsStep
      rw [if_neg hc]
    simp [ptRun, h1, hstep]
  · intro fs web p text cl h1 h2 h3
    simp [ptRun, h1, h2, h3]

/-- Witness for claim C7 at concrete failing environments. -/
theorem claimC7_witness :
    xgbRun xgbFsNoFm "linux" = .error (.ioError "machine.featmap.txt") ∧
    ptRun ptFs0 (fun _ => none) "linux" = .error (.urlError labelUrl) :=
  ⟨claimC7_no_error_handling.2.2.1 xgbFsNoFm "linux" "81 0:125 1:256\n"
      "22 0:29 1:8000\n" rfl rfl rfl,
   claimC7_no_error_handling.2.2.2.2.1 ptFs0 (fun _ => none) "linux" rfl⟩

/-- Claim C8 fails as stated: in the PyTorch notebook the model build
(first cell) precedes the data loads (label download and image read), so
the fixed order load-data-then-build is violated on a concrete run. -/
theorem claimC8_counterexample : ¬ specClaimLinearOrder := by
  intro h
  have h2 := (h.2 ptFs0 ptWeb0 "linux" ptOut0 ptRun_eq0).1
  exact absurd h2 (by decide)

/-- Claim C8 amended: the XGBoost notebook's events follow the full
linear order (load data, train, convert, serialize, then optionally
reload and predict); in the PyTorch notebook the model build precedes the
data loads but build, load, convert, serialize are otherwise in order; in
both notebooks the platform-gated reload-and-predict never executes
before the artifact has been written. -/
theorem claimC8_amended :
    (∀ (fs : String → Option String) (p : String) (out : XgbOut),
        xgbRun fs p = .ok out →
          out.trace = xgbBaseTrace ++
            (if p = "darwin"
              then [.loadModelCall "machine.mlmodel", .predictCall]
              else []) ∧
          phasesMonotone out.trace = true ∧
          noPredBeforeWrite "machine.mlmodel" out.trace = true) ∧
    (∀ (fs web : String → Option String) (p : String) (out : PtOut),
        ptRun fs web p = .ok out →
          out.trace = ptBaseTrace ++
            (if p = "darwin"
              then [.loadModelCall "MobileNet_v2_torch.mlmodel", .predictCall]
              else []) ∧
          noPredBeforeWrite "MobileNet_v2_torch.mlmodel" out.trace = true) := by
  constructor
  · intro fs p out h
    obtain ⟨dtrain, dtest, fmap, fns, -, -, -, -, -, -, -, -, -, hcase⟩ :=
      xgbRun_ok fs p out h
    rcases hcase with ⟨hp, htr, -⟩ | ⟨hp, htr, -⟩
    · rw [htr, if_pos hp]
      exact ⟨rfl, by decide, by decide⟩
    · rw [htr, if_neg hp]
      exact ⟨by simp, by decide, by decide⟩
  · intro fs web p out h
    obtain ⟨text, img, -, -, -, -, -, -, hcase⟩ := ptRun_ok fs web p out h
    rcases hcase with ⟨hp, htr, -⟩ | ⟨hp, htr, -⟩
    · rw [htr, if_pos hp]
      exact ⟨rfl, by decide⟩
    · rw [htr, if_neg hp]
      exact ⟨by simp, by decide⟩

/-- Witness for the amended claim C8 at concrete macOS runs. -/
theorem claimC8_witness :
    phasesMonotone xgbOutD.trace = true ∧
    noPredBeforeWrite "machine.mlmodel" xgbOutD.trace = true ∧
    noPredBeforeWrite "MobileNet_v2_torch.mlmodel" ptOutD.trace = true :=
  ⟨(claimC8_amended.1 xgbFs0 "darwin" xgbOutD rfl).2.1,
   (claimC8_amended.1 xgbFs0 "darwin" xgbOutD rfl).2.2,
   (claimC8_amended.2 ptFs0 ptWeb0 "darwin" ptOutD ptRun_eqD).2⟩

/-- Claim C9: after the one-hot vendor loop, for every feature-name list,
every vendor-prefixed key of the example dictionary holds 1 exactly on
`vendor:ibm` and 0 otherwise (so at most one vendor key holds 1), and the
six literal numeric entries keep their original values. -/
theorem claimC9_example_dict (fns : List String) :
    (∀ k v, pyStartswith k "vendor" = true →
      dictGet (buildExample fns) k = some v → v = vendorVal k) ∧
    (∀ k v, pyStartswith k "vendor" = true →
      dictGet (buildExample fns) k = some v → v = .int 1 →
        k = "vendor:ibm") ∧
    dictGet (buildExample fns) "MYCT" = some (.int 125) ∧
    dictGet (buildExample fns) "MMIN" = some (.int 256) ∧
    dictGet (buildExample fns) "MMAX" = some (.int 6000) ∧
    dictGet (buildExample fns) "CACH" = some (.int 256) ∧
    dictGet (buildExample fns) "CHMIN" = some (.int 16) ∧
    dictGet (buildExample fns) "CHMAX" = some (.int 128) := by
  have hv := foldl_vendorStep_inv fns exampleInit exampleInit_vendor_inv
  have hnv := fun k hk =>
    foldl_vendorStep_nonvendor fns exampleInit k hk
  refine ⟨hv, ?_, ?_, ?_, ?_, ?_, ?_, ?_⟩
  · intro k v hk hget h1
    have := hv k v hk hget
    rw [h1] at this
    unfold vendorVal at this
    by_cases hke : k = "vendor:ibm"
    · exact hke
    · rw [if_neg hke] at this
      cases this
  all_goals (rw [buildExample, hnv _ (by decide)]; decide)

/-- Witness for claim C9 at a concrete feature-name list. -/
theorem claimC9_witness :
    (PyVal.int 0) = vendorVal "vendor:dec" ∧
    dictGet (buildExample ["MYCT", "vendor:ibm", "vendor:dec"]) "MYCT" =
      some (.int 125) :=
  ⟨(claimC9_example_dict ["MYCT", "vendor:ibm", "vendor:dec"]).1
      "vendor:dec" (.int 0) (by decide) (by decide),
   (claimC9_example_dict ["MYCT", "vendor:ibm", "vendor:dec"]).2.2.1⟩

/-- Claim C10: the feature-name extraction is partial: it succeeds
exactly when every line of the file has at least two whitespace-separated
tokens, and any blank or one-token line makes it fail. -/
theorem claimC10_partial_extraction (c : String) :
    ((getFeatureNames c).isSome = true ↔
      ∀ l ∈ readlines c, 2 ≤ (pysplit l).length) ∧
    (∀ l ∈ readlines c, (pysplit l).length ≤ 1 →
      getFeatureNames c = none) := by
  have hiff := secondTokens_isSome_iff (readlines c)
  constructor
  · exact hiff
  · intro l hl hshort
    cases hg : getFeatureNames c with
    | none => rfl
    | some fns =>
      have : (getFeatureNames c).isSome = true := by rw [hg]; rfl
      have h2 := hiff.mp this l hl
      omega

/-- Witness for claim C10: a file with a blank middle line makes the
extraction fail. -/
theorem claimC10_witness :
    getFeatureNames "0 MYCT q\n\n1 x y\n" = none :=
  (claimC10_partial_extraction "0 MYCT q\n\n1 x y\n").2 "\n"
    (by decide) (by decide)

end CoremlDemo
